import Mathlib

/-
Verification of the coordinate-normalization and blink-detection core of
react-native-smart-camera.

The embedding translates the source code:
  - android FaceDetectorFrameProcessorPlugin.kt (faceToMap, pointToMap) and
    ios FaceDetectorFrameProcessorPlugin.swift (faceToDict, pointToDict):
    the coordinate normalizer.  Both platforms implement the same arithmetic;
    the embedding follows the Kotlin text.  Floating-point coordinates are
    modelled as rationals.
  - the SmartCamera component (processBlink): blink tracker variant A.
  - src/detection/blinkProcessor.ts (processBlinkFromFaces): variant B.
  - useBlinkDetection (processEyeStatus): continuous eye status.
JavaScript Date.now timestamps are passed explicitly as rational arguments.
-/

namespace SmartCamera

/-- A 2-D point, in frame-pixel or normalized space. -/
structure Point where
  x : ℚ
  y : ℚ
deriving DecidableEq, Repr

/-- A rectangle given by its top-left corner and size. -/
structure Bounds where
  x : ℚ
  y : ℚ
  width : ℚ
  height : ℚ
deriving DecidableEq, Repr

/-- Configuration consumed by the normalizer: the parameters of faceToMap
in FaceDetectorFrameProcessorPlugin.kt (frameWidth, frameHeight, autoMode,
windowWidth, windowHeight, cameraFacing). -/
structure NormalizationContext where
  autoMode : Bool
  windowWidth : ℚ
  windowHeight : ℚ
  cameraFacing : String
  frameWidth : ℚ
  frameHeight : ℚ
deriving DecidableEq, Repr

/-- Horizontal scale factor, from faceToMap:
val scaleX = if (autoMode) windowWidth / frameWidth else 1.0f / frameWidth. -/
def scaleX (ctx : NormalizationContext) : ℚ :=
  if ctx.autoMode then ctx.windowWidth / ctx.frameWidth else 1 / ctx.frameWidth

/-- Vertical scale factor, from faceToMap:
val scaleY = if (autoMode) windowHeight / frameHeight else 1.0f / frameHeight. -/
def scaleY (ctx : NormalizationContext) : ℚ :=
  if ctx.autoMode then ctx.windowHeight / ctx.frameHeight else 1 / ctx.frameHeight

/-- Mirror flag, from faceToMap:
val mirrorX = autoMode && cameraFacing == "front". -/
def mirrorX (ctx : NormalizationContext) : Bool :=
  ctx.autoMode && (ctx.cameraFacing == "front")

/-- The horizontal flip applied by the mirror branch of pointToMap to an
already-scaled coordinate: windowWidth - (x * scaleX) with s = x * scaleX. -/
def applyMirror (windowWidth s : ℚ) : ℚ :=
  windowWidth - s

/-- Translation of pointToMap in FaceDetectorFrameProcessorPlugin.kt
(identical arithmetic to pointToDict in the Swift plugin):
scaledX = if (mirrorX) windowWidth - (x * scaleX) else x * scaleX,
paired with y * scaleY. -/
def pointToMap (x y sX sY : ℚ) (mX : Bool) (windowWidth : ℚ) : Point :=
  { x := if mX then applyMirror windowWidth (x * sX) else x * sX
    y := y * sY }

/-- Normalization of a single point: pointToMap applied with the scale
factors and mirror flag computed from the context, exactly as every call
site inside faceToMap does. -/
def normalizePoint (p : Point) (ctx : NormalizationContext) : Point :=
  pointToMap p.x p.y (scaleX ctx) (scaleY ctx) (mirrorX ctx) ctx.windowWidth

/-- Translation of the bounding-box block of faceToMap:
x = if (mirrorX) windowWidth - (bounds.right * scaleX) else bounds.left * scaleX
(bounds.right = x + width), y = top * scaleY, width = width() * scaleX,
height = height() * scaleY.  The Swift plugin writes the mirrored x as
windowWidth - ((origin.x + width) * scaleX), the same value. -/
def normalizeBounds (b : Bounds) (ctx : NormalizationContext) : Bounds :=
  { x := if mirrorX ctx then ctx.windowWidth - (b.x + b.width) * scaleX ctx
         else b.x * scaleX ctx
    y := b.y * scaleY ctx
    width := b.width * scaleX ctx
    height := b.height * scaleY ctx }

theorem mirrorX_eq_true_iff (ctx : NormalizationContext) :
    mirrorX ctx = true ↔ ctx.autoMode = true ∧ ctx.cameraFacing = "front" := by
  simp [mirrorX]

theorem normalizePoint_eq (p : Point) (ctx : NormalizationContext) :
    normalizePoint p ctx =
      { x := if ctx.autoMode = true ∧ ctx.cameraFacing = "front" then
               ctx.windowWidth - p.x *
                 (if ctx.autoMode then ctx.windowWidth / ctx.frameWidth
                  else 1 / ctx.frameWidth)
             else p.x *
                 (if ctx.autoMode then ctx.windowWidth / ctx.frameWidth
                  else 1 / ctx.frameWidth)
        y := p.y *
               (if ctx.autoMode then ctx.windowHeight / ctx.frameHeight
                else 1 / ctx.frameHeight) } := by
  unfold normalizePoint pointToMap applyMirror scaleX scaleY
  rcases hm : mirrorX ctx with _ | _
  · have h : ¬ (ctx.autoMode = true ∧ ctx.cameraFacing = "front") := by
      intro hc
      have := (mirrorX_eq_true_iff ctx).mpr hc
      simp [this] at hm
    simp [h]
  · have h : ctx.autoMode = true ∧ ctx.cameraFacing = "front" :=
      (mirrorX_eq_true_iff ctx).mp hm
    simp [h]

/-- C1: for every point and every NormalizationContext, normalizePoint
returns the pair (x, y) where scaleX is windowWidth/frameWidth in autoMode and
1/frameWidth otherwise (scaleY analogously with the heights), x is
windowWidth - point.x * scaleX when autoMode is true and the camera faces
front and point.x * scaleX otherwise, and y is always point.y * scaleY:
the vertical axis is never mirrored. -/
theorem normalizePoint_spec (p : Point) (ctx : NormalizationContext) :
    normalizePoint p ctx =
      { x := if ctx.autoMode = true ∧ ctx.cameraFacing = "front" then
               ctx.windowWidth - p.x *
                 (if ctx.autoMode then ctx.windowWidth / ctx.frameWidth
                  else 1 / ctx.frameWidth)
             else p.x *
                 (if ctx.autoMode then ctx.windowWidth / ctx.frameWidth
                  else 1 / ctx.frameWidth)
        y := p.y *
               (if ctx.autoMode then ctx.windowHeight / ctx.frameHeight
                else 1 / ctx.frameHeight) } :=
  normalizePoint_eq p ctx

/-- C2: with autoMode on and a front camera, normalizeBounds anchors the
mirrored x to the far edge of the box, x becomes
windowWidth - (x + width) * scaleX while width, height and y scale
independently; in particular bounds (100, 50, 40, 20) with frameWidth 640
and windowWidth 1000 map to x = 781.25. -/
theorem normalizeBounds_mirror_far_edge (b : Bounds) (ctx : NormalizationContext)
    (hAuto : ctx.autoMode = true) (hFront : ctx.cameraFacing = "front") :
    normalizeBounds b ctx =
      { x := ctx.windowWidth - (b.x + b.width) * (ctx.windowWidth / ctx.frameWidth)
        y := b.y * (ctx.windowHeight / ctx.frameHeight)
        width := b.width * (ctx.windowWidth / ctx.frameWidth)
        height := b.height * (ctx.windowHeight / ctx.frameHeight) } ∧
    (normalizeBounds ⟨100, 50, 40, 20⟩
        ⟨true, 1000, 480, "front", 640, 480⟩).x = 781.25 := by
  constructor
  · have hm : mirrorX ctx = true := (mirrorX_eq_true_iff ctx).mpr ⟨hAuto, hFront⟩
    unfold normalizeBounds scaleX scaleY
    simp [hm, hAuto]
  · norm_num [normalizeBounds, scaleX, scaleY, mirrorX]

/-- Closed instantiation of the C2 theorem at a concrete context. -/
theorem normalizeBounds_mirror_far_edge_witness :
    normalizeBounds ⟨100, 50, 40, 20⟩ ⟨true, 1000, 480, "front", 640, 480⟩ =
      { x := 1000 - (100 + 40) * (1000 / 640)
        y := 50 * (480 / 480)
        width := 40 * (1000 / 640)
        height := 20 * (480 / 480) } :=
  (normalizeBounds_mirror_far_edge ⟨100, 50, 40, 20⟩
    ⟨true, 1000, 480, "front", 640, 480⟩ rfl rfl).1

/-- C7 counterexample: the source has no validation of frameWidth or
frameHeight; at frameWidth = 0 the normalizer still returns a value instead
of failing.  The float implementation produces Infinity/NaN there; under
the rational embedding division by zero yields 0, so the outputs below are
definite values, with no error path anywhere in pointToMap or faceToMap. -/
theorem normalizer_no_failfast :
    normalizePoint ⟨100, 50⟩ ⟨false, 1000, 480, "back", 0, 480⟩ =
      ⟨0, 5 / 48⟩ ∧
    normalizeBounds ⟨100, 50, 40, 20⟩ ⟨false, 1000, 480, "back", 0, 480⟩ =
      ⟨0, 5 / 48, 0, 1 / 24⟩ := by
  constructor <;>
    norm_num [normalizePoint, normalizeBounds, pointToMap, applyMirror,
      scaleX, scaleY, mirrorX]

/-- C7 amended: the Normalizer performs no runtime check on frameWidth or
frameHeight.  Even for zero or negative dimensions it returns the same
formulas (which produce Infinity or NaN in the floating-point
implementation); positive dimensions are a documented caller
precondition, not an enforced one. -/
theorem normalizer_degenerate_dims_still_return (p : Point)
    (ctx : NormalizationContext)
    (h : ctx.frameWidth ≤ 0 ∨ ctx.frameHeight ≤ 0) :
    normalizePoint p ctx =
      { x := if ctx.autoMode = true ∧ ctx.cameraFacing = "front" then
               ctx.windowWidth - p.x *
                 (if ctx.autoMode then ctx.windowWidth / ctx.frameWidth
                  else 1 / ctx.frameWidth)
             else p.x *
                 (if ctx.autoMode then ctx.windowWidth / ctx.frameWidth
                  else 1 / ctx.frameWidth)
        y := p.y *
               (if ctx.autoMode then ctx.windowHeight / ctx.frameHeight
                else 1 / ctx.frameHeight) } :=
  normalizePoint_eq p ctx

/-- Closed instantiation of the amended C7 theorem at frameWidth = 0. -/
theorem normalizer_degenerate_dims_still_return_witness :
    normalizePoint ⟨100, 50⟩ ⟨false, 1000, 480, "back", 0, 480⟩ =
      { x := if (false = true ∧ "back" = "front") then
               1000 - 100 * (if false then (1000 : ℚ) / 0 else 1 / 0)
             else 100 * (if false then (1000 : ℚ) / 0 else 1 / 0)
        y := 50 * (if false then (480 : ℚ) / 480 else 1 / 480) } :=
  normalizer_degenerate_dims_still_return ⟨100, 50⟩
    ⟨false, 1000, 480, "back", 0, 480⟩ (Or.inl (by norm_num))

/-- C9: the horizontal mirror used by the front-camera branch of pointToMap
is an involution: mirroring a coordinate and mirroring the result with the
same windowWidth restores it exactly (the rational embedding needs no
floating tolerance); and for an autoMode front-camera context the
normalized x is precisely that mirror applied to the scaled coordinate. -/
theorem mirror_round_trip (p : Point) (ctx : NormalizationContext)
    (w x : ℚ) (hAuto : ctx.autoMode = true)
    (hFront : ctx.cameraFacing = "front") :
    applyMirror w (applyMirror w x) = x ∧
    (normalizePoint p ctx).x = applyMirror ctx.windowWidth (p.x * scaleX ctx)
    := by
  constructor
  · unfold applyMirror
    ring
  · have hm : mirrorX ctx = true := (mirrorX_eq_true_iff ctx).mpr
      ⟨hAuto, hFront⟩
    simp [normalizePoint, pointToMap, hm]

/-- Closed instantiation of the C9 theorem at a concrete point and
context. -/
theorem mirror_round_trip_witness :
    applyMirror 1000 (applyMirror 1000 100) = 100 ∧
    (normalizePoint ⟨100, 50⟩ ⟨true, 1000, 480, "front", 640, 480⟩).x =
      applyMirror (1000 : ℚ)
        (100 * scaleX ⟨true, 1000, 480, "front", 640, 480⟩) :=
  mirror_round_trip ⟨100, 50⟩ ⟨true, 1000, 480, "front", 640, 480⟩
    1000 100 rfl rfl

/-- Input to faceToMap: the fields the plugin reads off the ML Kit face.
Bounding box and Euler angles are always present; classification
probabilities and tracking id are optional; the landmarks and contours
actually present are listed as named points (respectively named point
sequences) in the plugin's fixed iteration order. -/
structure RawFace where
  bounds : Bounds
  rollAngle : ℚ
  pitchAngle : ℚ
  yawAngle : ℚ
  smilingProbability : Option ℚ
  leftEyeOpenProbability : Option ℚ
  rightEyeOpenProbability : Option ℚ
  trackingId : Option ℤ
  landmarks : List (String × Point)
  contours : List (String × List Point)
deriving DecidableEq, Repr

/-- The result map faceToMap builds: its optional keys are optional
fields. -/
structure FaceMap where
  bounds : Bounds
  rollAngle : ℚ
  pitchAngle : ℚ
  yawAngle : ℚ
  smilingProbability : Option ℚ
  leftEyeOpenProbability : Option ℚ
  rightEyeOpenProbability : Option ℚ
  trackingId : Option ℤ
  landmarks : Option (List (String × Point))
  contours : Option (List (String × List Point))
deriving DecidableEq, Repr

/-- Translation of faceToMap (Kotlin; faceToDict in Swift is the same
shape): normalizeBounds on the box, every angle, probability and the
tracking id copied through (optional ones only when present), every present
landmark point and contour point run through pointToMap, and the landmarks
and contours keys written only when the collected maps are nonempty. -/
def faceToMap (face : RawFace) (ctx : NormalizationContext) : FaceMap :=
  let lms := face.landmarks.map (fun nl => (nl.1, normalizePoint nl.2 ctx))
  let cts := face.contours.map
    (fun nc => (nc.1, nc.2.map (fun p => normalizePoint p ctx)))
  { bounds := normalizeBounds face.bounds ctx
    rollAngle := face.rollAngle
    pitchAngle := face.pitchAngle
    yawAngle := face.yawAngle
    smilingProbability := face.smilingProbability
    leftEyeOpenProbability := face.leftEyeOpenProbability
    rightEyeOpenProbability := face.rightEyeOpenProbability
    trackingId := face.trackingId
    landmarks := if lms.isEmpty then none else some lms
    contours := if cts.isEmpty then none else some cts }

/-- C8: faceToMap leaves the angles, the classification probabilities and
the tracking id exactly as the detector produced them; the landmarks key
(respectively contours key) is absent exactly when no landmark (contour)
is present in the source, and is never an empty mapping. -/
theorem faceToMap_passthrough_and_omission (face : RawFace)
    (ctx : NormalizationContext) :
    (faceToMap face ctx).rollAngle = face.rollAngle ∧
    (faceToMap face ctx).pitchAngle = face.pitchAngle ∧
    (faceToMap face ctx).yawAngle = face.yawAngle ∧
    (faceToMap face ctx).smilingProbability = face.smilingProbability ∧
    (faceToMap face ctx).leftEyeOpenProbability =
      face.leftEyeOpenProbability ∧
    (faceToMap face ctx).rightEyeOpenProbability =
      face.rightEyeOpenProbability ∧
    (faceToMap face ctx).trackingId = face.trackingId ∧
    ((faceToMap face ctx).landmarks = none ↔ face.landmarks = []) ∧
    ((faceToMap face ctx).contours = none ↔ face.contours = []) ∧
    (faceToMap face ctx).landmarks ≠ some [] ∧
    (faceToMap face ctx).contours ≠ some [] := by
  refine ⟨rfl, rfl, rfl, rfl, rfl, rfl, rfl, ?_, ?_, ?_, ?_⟩ <;>
    cases hl : face.landmarks <;> cases hc : face.contours <;>
      simp [faceToMap, hl, hc]

/-- A detected face as in the TypeScript Face interface (types.ts): bounds,
optional pose angles, optional landmark and contour maps, optional
classification probabilities and optional tracking id. -/
structure Face where
  bounds : Bounds
  rollAngle : Option ℚ
  pitchAngle : Option ℚ
  yawAngle : Option ℚ
  landmarks : Option (List (String × Point))
  contours : Option (List (String × List Point))
  smilingProbability : Option ℚ
  leftEyeOpenProbability : Option ℚ
  rightEyeOpenProbability : Option ℚ
  trackingId : Option ℤ
deriving DecidableEq, Repr

/-- A blink event as in the TypeScript BlinkEvent interface. -/
structure BlinkEvent where
  timestamp : ℚ
  leftEyeOpen : ℚ
  rightEyeOpen : ℚ
  isBlink : Bool
  faceId : Option ℤ
deriving DecidableEq, Repr

/-- Concrete Face fixture: every optional field absent except the eye-open
probabilities and the tracking id. -/
def mkFace (l r : Option ℚ) (id : Option ℤ) : Face :=
  { bounds := ⟨0, 0, 0, 0⟩
    rollAngle := none
    pitchAngle := none
    yawAngle := none
    landmarks := none
    contours := none
    smilingProbability := none
    leftEyeOpenProbability := l
    rightEyeOpenProbability := r
    trackingId := id }

namespace SmartCameraComponent

/-! Blink tracker variant A: the processBlink callback of the SmartCamera
component, with its module-level constants.  The component keeps one
BlinkState in a ref, initialised to lastLeftEyeOpen = 1,
lastRightEyeOpen = 1, lastBlinkTime = 0.  Date.now() is the explicit now
argument; the emitted event is returned instead of being passed to the
onBlinkDetected callback. -/

def BLINK_DEBOUNCE_MS : ℚ := 300

def EYE_CLOSED_THRESHOLD : ℚ := 0.3

def EYE_OPEN_THRESHOLD : ℚ := 0.7

/-- Per-component blink state (the BlinkState interface of the component). -/
structure BlinkState where
  lastLeftEyeOpen : ℚ
  lastRightEyeOpen : ℚ
  lastBlinkTime : ℚ
deriving DecidableEq, Repr

/-- The initial value of the blinkState ref. -/
def initialBlinkState : BlinkState :=
  { lastLeftEyeOpen := 1, lastRightEyeOpen := 1, lastBlinkTime := 0 }

/-- Translation of processBlink: missing probabilities default to 1 via the
JavaScript nullish coalescing (?? 1); blink is edge-triggered on either eye
going from was-open to now-closed, debounced by BLINK_DEBOUNCE_MS; the
last-seen probabilities are always updated from the current sample. -/
def processBlink (state : BlinkState) (faces : List Face) (now : ℚ) :
    BlinkState × Option BlinkEvent :=
  match faces with
  | [] => (state, none)
  | face :: _ =>
    let leftEyeOpen := face.leftEyeOpenProbability.getD 1
    let rightEyeOpen := face.rightEyeOpenProbability.getD 1
    let wasLeftEyeOpen := decide (state.lastLeftEyeOpen > EYE_OPEN_THRESHOLD)
    let wasRightEyeOpen := decide (state.lastRightEyeOpen > EYE_OPEN_THRESHOLD)
    let isLeftEyeClosed := decide (leftEyeOpen < EYE_CLOSED_THRESHOLD)
    let isRightEyeClosed := decide (rightEyeOpen < EYE_CLOSED_THRESHOLD)
    let isBlink := (wasLeftEyeOpen && isLeftEyeClosed) ||
                   (wasRightEyeOpen && isRightEyeClosed)
    if isBlink && decide (now - state.lastBlinkTime > BLINK_DEBOUNCE_MS) then
      ({ lastLeftEyeOpen := leftEyeOpen, lastRightEyeOpen := rightEyeOpen
         lastBlinkTime := now },
       some { timestamp := now, leftEyeOpen := leftEyeOpen
              rightEyeOpen := rightEyeOpen, isBlink := true
              faceId := face.trackingId })
    else
      ({ lastLeftEyeOpen := leftEyeOpen, lastRightEyeOpen := rightEyeOpen
         lastBlinkTime := state.lastBlinkTime }, none)

/-- Iterate processBlink over a sequence of (faces, now) samples, collecting
the emitted events in order. -/
def runBlink (state : BlinkState) (samples : List (List Face × ℚ)) :
    BlinkState × List BlinkEvent :=
  match samples with
  | [] => (state, [])
  | (faces, now) :: rest =>
    match processBlink state faces now with
    | (s1, ev) =>
      match runBlink s1 rest with
      | (s2, evs) => (s2, ev.toList ++ evs)

/-- C3: variant A emits an event on a sample exactly when some eye whose
previous probability exceeded EYE_OPEN_THRESHOLD now has probability below
EYE_CLOSED_THRESHOLD (either-eye rule, no waiting for re-opening) and the
debounce window has elapsed; the was-open bookkeeping is always updated from
the current sample; and the sequence (0.9, 0.9) then (0.9, 0.2) within one
debounce window from start emits exactly one BlinkEvent, on the second
sample. -/
theorem processBlink_edge_triggered (state : BlinkState) (face : Face)
    (rest : List Face) (now l r : ℚ)
    (hl : face.leftEyeOpenProbability = some l)
    (hr : face.rightEyeOpenProbability = some r) :
    ((processBlink state (face :: rest) now).2.isSome = true ↔
      (((state.lastLeftEyeOpen > EYE_OPEN_THRESHOLD ∧ l < EYE_CLOSED_THRESHOLD) ∨
        (state.lastRightEyeOpen > EYE_OPEN_THRESHOLD ∧ r < EYE_CLOSED_THRESHOLD)) ∧
       now - state.lastBlinkTime > BLINK_DEBOUNCE_MS)) ∧
    (processBlink state (face :: rest) now).1.lastLeftEyeOpen = l ∧
    (processBlink state (face :: rest) now).1.lastRightEyeOpen = r ∧
    (runBlink initialBlinkState
      [([mkFace (some 0.9) (some 0.9) none], 1000),
       ([mkFace (some 0.9) (some 0.2) none], 1100)]).2 =
      [{ timestamp := 1100, leftEyeOpen := 0.9, rightEyeOpen := 0.2,
         isBlink := true, faceId := none }] := by
  have hseq : (runBlink initialBlinkState
      [([mkFace (some 0.9) (some 0.9) none], 1000),
       ([mkFace (some 0.9) (some 0.2) none], 1100)]).2 =
      [{ timestamp := 1100, leftEyeOpen := 0.9, rightEyeOpen := 0.2,
         isBlink := true, faceId := none }] := by
    norm_num [runBlink, processBlink, initialBlinkState, mkFace,
      EYE_OPEN_THRESHOLD, EYE_CLOSED_THRESHOLD, BLINK_DEBOUNCE_MS]
  simp only [processBlink, hl, hr, Option.getD_some]
  split_ifs with h
  · refine ⟨?_, rfl, rfl, hseq⟩
    simp only [Option.isSome_some, true_iff]
    simpa [Bool.and_eq_true, Bool.or_eq_true, decide_eq_true_iff] using h
  · refine ⟨?_, rfl, rfl, hseq⟩
    simp only [Option.isSome_none, Bool.false_eq_true, false_iff]
    intro hc
    exact h (by simpa [Bool.and_eq_true, Bool.or_eq_true, decide_eq_true_iff] using hc)

/-- Closed instantiation of the C3 theorem: first sample of the two-sample
scenario, evaluated from the initial state. -/
theorem processBlink_edge_triggered_witness :
    ((processBlink initialBlinkState [mkFace (some 0.9) (some 0.9) none]
        1000).2.isSome = true ↔
      (((initialBlinkState.lastLeftEyeOpen > EYE_OPEN_THRESHOLD ∧
          (0.9 : ℚ) < EYE_CLOSED_THRESHOLD) ∨
        (initialBlinkState.lastRightEyeOpen > EYE_OPEN_THRESHOLD ∧
          (0.9 : ℚ) < EYE_CLOSED_THRESHOLD)) ∧
       (1000 : ℚ) - initialBlinkState.lastBlinkTime > BLINK_DEBOUNCE_MS)) ∧
    (processBlink initialBlinkState [mkFace (some 0.9) (some 0.9) none]
        1000).1.lastLeftEyeOpen = 0.9 ∧
    (processBlink initialBlinkState [mkFace (some 0.9) (some 0.9) none]
        1000).1.lastRightEyeOpen = 0.9 ∧
    (runBlink initialBlinkState
      [([mkFace (some 0.9) (some 0.9) none], 1000),
       ([mkFace (some 0.9) (some 0.2) none], 1100)]).2 =
      [{ timestamp := 1100, leftEyeOpen := 0.9, rightEyeOpen := 0.2,
         isBlink := true, faceId := none }] :=
  processBlink_edge_triggered initialBlinkState
    (mkFace (some 0.9) (some 0.9) none) [] 1000 0.9 0.9 rfl rfl

theorem processBlink_emit_spec (s : BlinkState) (faces : List Face) (now : ℚ)
    (e : BlinkEvent) (h : (processBlink s faces now).2 = some e) :
    e.timestamp = now ∧ (processBlink s faces now).1.lastBlinkTime = now ∧
    now - s.lastBlinkTime > BLINK_DEBOUNCE_MS := by
  cases faces with
  | nil => simp [processBlink] at h
  | cons face rest =>
    revert h
    simp only [processBlink]
    split_ifs with hc
    · intro h
      simp only [Bool.and_eq_true, Bool.or_eq_true, decide_eq_true_iff] at hc
      have he : ({ timestamp := now
                   leftEyeOpen := face.leftEyeOpenProbability.getD 1
                   rightEyeOpen := face.rightEyeOpenProbability.getD 1
                   isBlink := true, faceId := face.trackingId } : BlinkEvent)
          = e := by simpa using h
      subst he
      exact ⟨rfl, rfl, hc.2⟩
    · intro h
      simp at h

theorem processBlink_none_spec (s : BlinkState) (faces : List Face) (now : ℚ)
    (h : (processBlink s faces now).2 = none) :
    (processBlink s faces now).1.lastBlinkTime = s.lastBlinkTime := by
  cases faces with
  | nil => rfl
  | cons face rest =>
    revert h
    simp only [processBlink]
    split_ifs with hc
    · intro h
      simp at h
    · intro _
      rfl

theorem runBlink_chain (samples : List (List Face × ℚ)) :
    ∀ s : BlinkState,
      List.Chain (fun a b => b - a > BLINK_DEBOUNCE_MS) s.lastBlinkTime
        ((runBlink s samples).2.map (fun e => e.timestamp)) := by
  induction samples with
  | nil => intro s; simp [runBlink]
  | cons sample rest ih =>
    intro s
    obtain ⟨faces, now⟩ := sample
    simp only [runBlink]
    cases hstep : processBlink s faces now with
    | mk s1 ev =>
      cases hrun : runBlink s1 rest with
      | mk s2 evs =>
        cases ev with
        | none =>
          simp only [Option.toList, List.nil_append]
          have h1 : s1.lastBlinkTime = s.lastBlinkTime := by
            have := processBlink_none_spec s faces now (by rw [hstep])
            rwa [hstep] at this
          have h2 := ih s1
          rw [hrun] at h2
          rw [← h1]
          exact h2
        | some e =>
          simp only [Option.toList, List.cons_append, List.nil_append,
            List.map_cons]
          have hspec := processBlink_emit_spec s faces now e (by rw [hstep])
          rw [hstep] at hspec
          obtain ⟨ht, hlast, hgap⟩ := hspec
          refine List.Chain.cons (by rw [ht]; exact hgap) ?_
          have h2 := ih s1
          rw [hrun] at h2
          rw [ht, ← hlast]
          exact h2

end SmartCameraComponent

/-- From a gap chain anchored anywhere, the listed values are pairwise more
than the gap apart, provided the gap is nonnegative. -/
theorem chain_gap_pairwise {d : ℚ} (hd : 0 ≤ d) {a : ℚ} {l : List ℚ}
    (h : List.Chain (fun x y => y - x > d) a l) :
    l.Pairwise (fun x y => y - x > d) := by
  haveI : IsTrans ℚ (fun x y => y - x > d) :=
    ⟨fun x y z hxy hyz => by simp only [gt_iff_lt] at *; linarith⟩
  exact (List.pairwise_cons.mp (List.chain_iff_pairwise.mp h)).2

namespace BlinkProcessor

/-! Blink tracker variant B: processBlinkFromFaces of
src/detection/blinkProcessor.ts, with its module-level constants and the
per-trackingId state map.  The map is modelled as an association list
threaded through the calls; Date.now() is the explicit now argument. -/

def EYE_CLOSED_THRESHOLD : ℚ := 0.4

def EYE_OPEN_THRESHOLD : ℚ := 0.6

/-- Per-face blink state (the BlinkState interface of blinkProcessor.ts). -/
structure BlinkState where
  wasEyesClosed : Bool
  lastBlinkTimestamp : ℚ
deriving DecidableEq, Repr

/-- The state a missing map entry is created with. -/
def freshBlinkState : BlinkState :=
  { wasEyesClosed := false, lastBlinkTimestamp := 0 }

/-- The global blinkStates map, as an association list from face id to
state. -/
abbrev BlinkStates := List (ℤ × BlinkState)

/-- Replace the binding for a key, or append it when absent: the effect of
mutating the object fetched from (or freshly inserted into) the Map. -/
def updateState (k : ℤ) (v : BlinkState) : BlinkStates → BlinkStates
  | [] => [(k, v)]
  | (k', v') :: rest =>
    if k = k' then (k, v) :: rest else (k', v') :: updateState k v rest

/-- Translation of processBlinkFromFaces: uses the first face only; returns
with the map untouched when either eye probability is absent; detects a
blink on the closed-to-open transition (both eyes jointly), debounced
against the state's own lastBlinkTimestamp.  The lastBlinkTimestamp
parameter is kept from the source signature; the source body never reads
it. -/
def processBlinkFromFaces (states : BlinkStates) (faces : List Face)
    ( lastBlinkTimestamp : ℚ) (debounceMs : ℚ) (now : ℚ) :
    BlinkStates × Option BlinkEvent :=
  match faces with
  | [] => (states, none)
  | face :: _ =>
    match face.leftEyeOpenProbability, face.rightEyeOpenProbability with
    | some leftEyeOpen, some rightEyeOpen =>
      let faceId := face.trackingId.getD 0
      let state := (List.lookup faceId states).getD freshBlinkState
      let eyesClosed := decide (leftEyeOpen < EYE_CLOSED_THRESHOLD) &&
                        decide (rightEyeOpen < EYE_CLOSED_THRESHOLD)
      let eyesOpen := decide (leftEyeOpen > EYE_OPEN_THRESHOLD) &&
                      decide (rightEyeOpen > EYE_OPEN_THRESHOLD)
      let isBlink := state.wasEyesClosed && eyesOpen &&
                     decide (now - state.lastBlinkTimestamp > debounceMs)
      let wasEyesClosed' := if eyesClosed then true
                            else if eyesOpen then false
                            else state.wasEyesClosed
      if isBlink then
        (updateState faceId
           { wasEyesClosed := wasEyesClosed', lastBlinkTimestamp := now } states,
         some { timestamp := now, leftEyeOpen := leftEyeOpen
                rightEyeOpen := rightEyeOpen, isBlink := true
                faceId := face.trackingId })
      else
        (updateState faceId
           { wasEyesClosed := wasEyesClosed'
             lastBlinkTimestamp := state.lastBlinkTimestamp } states, none)
    | _, _ => (states, none)

/-- Iterate processBlinkFromFaces over a sequence of (faces, now) samples,
collecting the emitted events in order.  The unused lastBlinkTimestamp
argument is passed as 0 at every call. -/
def runBlinkFromFaces (states : BlinkStates) (debounceMs : ℚ)
    (samples : List (List Face × ℚ)) : BlinkStates × List BlinkEvent :=
  match samples with
  | [] => (states, [])
  | (faces, now) :: rest =>
    match processBlinkFromFaces states faces 0 debounceMs now with
    | (s1, ev) =>
      match runBlinkFromFaces s1 debounceMs rest with
      | (s2, evs) => (s2, ev.toList ++ evs)

/-- C4: variant B returns a BlinkEvent exactly when the stored state's
wasEyesClosed flag is set, both current eye-open probabilities exceed
EYE_OPEN_THRESHOLD (0.6), and more than debounceMs has elapsed since the
state's own last blink timestamp; the sequence (0.9, 0.9), (0.1, 0.1),
(0.1, 0.1) produces zero events and only the further sample (0.9, 0.9)
produces exactly one event. -/
theorem processBlinkFromFaces_full_cycle (states : BlinkStates) (face : Face)
    (rest : List Face) (lbt debounceMs now l r : ℚ)
    (hl : face.leftEyeOpenProbability = some l)
    (hr : face.rightEyeOpenProbability = some r) :
    ((processBlinkFromFaces states (face :: rest) lbt debounceMs
        now).2.isSome = true ↔
      (((List.lookup (face.trackingId.getD 0) states).getD
          freshBlinkState).wasEyesClosed = true ∧
       l > EYE_OPEN_THRESHOLD ∧ r > EYE_OPEN_THRESHOLD ∧
       now - ((List.lookup (face.trackingId.getD 0) states).getD
          freshBlinkState).lastBlinkTimestamp > debounceMs)) ∧
    (runBlinkFromFaces [] 300
      [([mkFace (some 0.9) (some 0.9) none], 1000),
       ([mkFace (some 0.1) (some 0.1) none], 1100),
       ([mkFace (some 0.1) (some 0.1) none], 1200)]).2 = [] ∧
    (runBlinkFromFaces [] 300
      [([mkFace (some 0.9) (some 0.9) none], 1000),
       ([mkFace (some 0.1) (some 0.1) none], 1100),
       ([mkFace (some 0.1) (some 0.1) none], 1200),
       ([mkFace (some 0.9) (some 0.9) none], 1300)]).2 =
      [{ timestamp := 1300, leftEyeOpen := 0.9, rightEyeOpen := 0.9,
         isBlink := true, faceId := none }] := by
  refine ⟨?_, ?_, ?_⟩
  · simp only [processBlinkFromFaces, hl, hr, apply_ite Prod.snd,
      apply_ite Option.isSome, Option.isSome_some, Option.isSome_none]
    split_ifs with h
    · simp only [true_iff]
      have h' := h
      simp only [Bool.and_eq_true, decide_eq_true_iff] at h'
      tauto
    · simp only [Bool.false_eq_true, false_iff]
      intro hc
      apply h
      simp only [Bool.and_eq_true, decide_eq_true_iff]
      tauto
  · norm_num [runBlinkFromFaces, processBlinkFromFaces, freshBlinkState,
      updateState, EYE_OPEN_THRESHOLD, EYE_CLOSED_THRESHOLD, mkFace, List.lookup]
  · norm_num [runBlinkFromFaces, processBlinkFromFaces, freshBlinkState,
      updateState, EYE_OPEN_THRESHOLD, EYE_CLOSED_THRESHOLD, mkFace, List.lookup]

/-- Closed instantiation of the C4 theorem at the empty map and the first
sample of the scenario. -/
theorem processBlinkFromFaces_full_cycle_witness :
    ((processBlinkFromFaces [] [mkFace (some 0.9) (some 0.9) none] 0 300
        1000).2.isSome = true ↔
      (((List.lookup ((mkFace (some 0.9) (some 0.9) none).trackingId.getD 0)
          ([] : BlinkStates)).getD freshBlinkState).wasEyesClosed = true ∧
       (0.9 : ℚ) > EYE_OPEN_THRESHOLD ∧ (0.9 : ℚ) > EYE_OPEN_THRESHOLD ∧
       (1000 : ℚ) -
         ((List.lookup ((mkFace (some 0.9) (some 0.9) none).trackingId.getD 0)
           ([] : BlinkStates)).getD freshBlinkState).lastBlinkTimestamp >
         300)) ∧
    (runBlinkFromFaces [] 300
      [([mkFace (some 0.9) (some 0.9) none], 1000),
       ([mkFace (some 0.1) (some 0.1) none], 1100),
       ([mkFace (some 0.1) (some 0.1) none], 1200)]).2 = [] ∧
    (runBlinkFromFaces [] 300
      [([mkFace (some 0.9) (some 0.9) none], 1000),
       ([mkFace (some 0.1) (some 0.1) none], 1100),
       ([mkFace (some 0.1) (some 0.1) none], 1200),
       ([mkFace (some 0.9) (some 0.9) none], 1300)]).2 =
      [{ timestamp := 1300, leftEyeOpen := 0.9, rightEyeOpen := 0.9,
         isBlink := true, faceId := none }] :=
  processBlinkFromFaces_full_cycle [] (mkFace (some 0.9) (some 0.9) none)
    [] 0 300 1000 0.9 0.9 rfl rfl

/-- C10: the lastBlinkTimestamp argument of processBlinkFromFaces is dead:
with equal starting maps, any two values of it give the same returned event
and the same final map.  This holds definitionally because the translated
body, like the source body, never reads the parameter. -/
theorem processBlinkFromFaces_ignores_lastBlinkTimestamp
    (states : BlinkStates) (faces : List Face) (a b debounceMs now : ℚ) :
    processBlinkFromFaces states faces a debounceMs now =
    processBlinkFromFaces states faces b debounceMs now := rfl

theorem lookup_updateState_self (k : ℤ) (v : BlinkState)
    (states : BlinkStates) :
    List.lookup k (updateState k v states) = some v := by
  induction states with
  | nil => simp [updateState, List.lookup]
  | cons p rest ih =>
    obtain ⟨k', v'⟩ := p
    by_cases hk : k = k'
    · simp [updateState, hk, List.lookup]
    · have hb : (k == k') = false := beq_eq_false_iff_ne.mpr hk
      simp [updateState, hk, List.lookup, hb, ih]

theorem lookup_updateState_ne (k k' : ℤ) (v : BlinkState)
    (states : BlinkStates) (hk : k' ≠ k) :
    List.lookup k' (updateState k v states) = List.lookup k' states := by
  have hb : (k' == k) = false := beq_eq_false_iff_ne.mpr hk
  induction states with
  | nil => simp [updateState, List.lookup, hb]
  | cons p rest ih =>
    obtain ⟨k'', v''⟩ := p
    by_cases hk2 : k = k''
    · subst hk2
      simp [updateState, List.lookup, hb]
    · simp [updateState, hk2, List.lookup, ih]

theorem processBlinkFromFaces_emit_spec (states : BlinkStates)
    (faces : List Face) (lbt debounceMs now : ℚ) (e : BlinkEvent)
    (h : (processBlinkFromFaces states faces lbt debounceMs now).2 = some e) :
    e.timestamp = now ∧
    now - ((List.lookup (e.faceId.getD 0) states).getD
        freshBlinkState).lastBlinkTimestamp > debounceMs ∧
    ((List.lookup (e.faceId.getD 0)
        (processBlinkFromFaces states faces lbt debounceMs now).1).getD
        freshBlinkState).lastBlinkTimestamp = now ∧
    ∀ k, k ≠ e.faceId.getD 0 →
      List.lookup k (processBlinkFromFaces states faces lbt debounceMs now).1 =
      List.lookup k states := by
  cases faces with
  | nil => simp [processBlinkFromFaces] at h
  | cons face rest =>
    cases hl : face.leftEyeOpenProbability with
    | none =>
      cases hr : face.rightEyeOpenProbability <;>
        simp [processBlinkFromFaces, hl, hr] at h
    | some l =>
      cases hr : face.rightEyeOpenProbability with
      | none => simp [processBlinkFromFaces, hl, hr] at h
      | some r =>
        revert h
        simp only [processBlinkFromFaces, hl, hr]
        split_ifs with hc <;> intro h <;> simp at h <;>
          (obtain rfl := h.symm
           simp only [Bool.and_eq_true, decide_eq_true_iff] at hc
           refine ⟨rfl, hc.2, ?_, ?_⟩
           · simp [lookup_updateState_self]
           · intro k hk
             exact lookup_updateState_ne _ _ _ _ hk)

theorem processBlinkFromFaces_none_spec (states : BlinkStates)
    (faces : List Face) (lbt debounceMs now : ℚ)
    (h : (processBlinkFromFaces states faces lbt debounceMs now).2 = none) :
    ∀ k, ((List.lookup k (processBlinkFromFaces states faces lbt debounceMs
        now).1).getD freshBlinkState).lastBlinkTimestamp =
      ((List.lookup k states).getD freshBlinkState).lastBlinkTimestamp := by
  cases faces with
  | nil => intro k; rfl
  | cons face rest =>
    cases hl : face.leftEyeOpenProbability with
    | none =>
      cases hr : face.rightEyeOpenProbability <;>
        (intro k; simp [processBlinkFromFaces, hl, hr])
    | some l =>
      cases hr : face.rightEyeOpenProbability with
      | none => intro k; simp [processBlinkFromFaces, hl, hr]
      | some r =>
        revert h
        simp only [processBlinkFromFaces, hl, hr]
        split_ifs with hc <;> intro h <;> simp at h <;>
          (intro k
           by_cases hk : k = face.trackingId.getD 0
           · subst hk
             simp [lookup_updateState_self]
           · rw [lookup_updateState_ne _ _ _ _ hk])

theorem runBlinkFromFaces_chain (debounceMs : ℚ)
    (samples : List (List Face × ℚ)) :
    ∀ (states : BlinkStates) (k : ℤ),
      List.Chain (fun a b => b - a > debounceMs)
        ((List.lookup k states).getD freshBlinkState).lastBlinkTimestamp
        (((runBlinkFromFaces states debounceMs samples).2.filter
            (fun e => e.faceId.getD 0 == k)).map (fun e => e.timestamp)) := by
  induction samples with
  | nil => intro states k; simp [runBlinkFromFaces]
  | cons sample rest ih =>
    intro states k
    obtain ⟨faces, now⟩ := sample
    simp only [runBlinkFromFaces]
    cases hstep : processBlinkFromFaces states faces 0 debounceMs now with
    | mk s1 ev =>
      cases hrun : runBlinkFromFaces s1 debounceMs rest with
      | mk s2 evs =>
        cases ev with
        | none =>
          simp only [Option.toList, List.nil_append]
          have h1 := processBlinkFromFaces_none_spec states faces 0 debounceMs
            now (by rw [hstep]) k
          rw [hstep] at h1
          have h2 := ih s1 k
          rw [hrun] at h2
          rw [← h1]
          exact h2
        | some e =>
          simp only [Option.toList, List.cons_append, List.nil_append]
          have hspec := processBlinkFromFaces_emit_spec states faces 0
            debounceMs now e (by rw [hstep])
          rw [hstep] at hspec
          obtain ⟨ht, hgap, hlast, hother⟩ := hspec
          by_cases hk : e.faceId.getD 0 = k
          · have hbeq : (e.faceId.getD 0 == k) = true := by
              simpa using hk
            simp only [List.filter_cons, hbeq, if_true, List.map_cons]
            refine List.Chain.cons ?_ ?_
            · rw [ht, ← hk]
              exact hgap
            · have h2 := ih s1 k
              rw [hrun] at h2
              rw [hk] at hlast
              rw [hlast] at h2
              rw [ht]
              exact h2
          · have hbeq : (e.faceId.getD 0 == k) = false :=
              beq_eq_false_iff_ne.mpr hk
            simp only [List.filter_cons, hbeq, Bool.false_eq_true, if_false]
            have h2 := ih s1 k
            rw [hrun] at h2
            have hoth := hother k (fun hkk => hk hkk.symm)
            rw [hoth] at h2
            exact h2

end BlinkProcessor

namespace EyeStatusHook

/-! The continuous eye-status mode: processEyeStatus of the
useBlinkDetection hook.  The hook stores the returned snapshot with
setEyeStatus and invokes the callback; the function below returns the
snapshot it would store, or none when the source returns early. -/

/-- Per-eye slice of an EyeStatusResult. -/
structure EyeState where
  openProbability : ℚ
  isClosed : Bool
deriving DecidableEq, Repr

/-- The EyeStatusResult snapshot of types.ts. -/
structure EyeStatusResult where
  leftEye : EyeState
  rightEye : EyeState
  faceId : Option ℤ
  timestamp : ℚ
deriving DecidableEq, Repr

/-- Translation of processEyeStatus: returns early (none) when disabled,
when no face is present, or when either eye probability is absent;
otherwise snapshots both eyes against the single configurable threshold. -/
def processEyeStatus (enabled : Bool) (eyeClosedThreshold : ℚ)
    (faces : List Face) (now : ℚ) : Option EyeStatusResult :=
  match faces with
  | [] => none
  | face :: _ =>
    if enabled then
      match face.leftEyeOpenProbability, face.rightEyeOpenProbability with
      | some leftOpenProbability, some rightOpenProbability =>
        some { leftEye := { openProbability := leftOpenProbability
                            isClosed := decide (leftOpenProbability < eyeClosedThreshold) }
               rightEye := { openProbability := rightOpenProbability
                             isClosed := decide (rightOpenProbability < eyeClosedThreshold) }
               faceId := face.trackingId
               timestamp := now }
      | _, _ => none
    else none

end EyeStatusHook

/-- C5 counterexample: for the SmartCamera processBlink pipeline a missing
left-eye probability is not a no-op.  From state (0.9, 0.9, 0), a face with
leftEyeOpenProbability absent and rightEyeOpenProbability 0.2 at time 1000
emits a BlinkEvent and changes the state: the missing probability is
replaced by 1 and processing continues. -/
theorem processBlink_missing_probability_not_noop :
    SmartCameraComponent.processBlink ⟨0.9, 0.9, 0⟩
        [mkFace none (some 0.2) none] 1000 =
      (⟨1, 0.2, 1000⟩,
       some { timestamp := 1000, leftEyeOpen := 1, rightEyeOpen := 0.2,
              isBlink := true, faceId := none }) ∧
    (⟨1, 0.2, 1000⟩ : SmartCameraComponent.BlinkState) ≠ ⟨0.9, 0.9, 0⟩ := by
  constructor
  · norm_num [SmartCameraComponent.processBlink, mkFace,
      SmartCameraComponent.EYE_OPEN_THRESHOLD,
      SmartCameraComponent.EYE_CLOSED_THRESHOLD,
      SmartCameraComponent.BLINK_DEBOUNCE_MS]
  · intro hc
    rw [SmartCameraComponent.BlinkState.mk.injEq] at hc
    norm_num at hc

/-- C5 amended: a face with an absent eye-open probability is a silent
no-op (state untouched, no event or status) for processBlinkFromFaces and
processEyeStatus; the SmartCamera processBlink pipeline instead substitutes
1 for each absent probability and continues processing. -/
theorem missing_probability_policy
    (states : BlinkProcessor.BlinkStates)
    (s : SmartCameraComponent.BlinkState) (face : Face) (rest : List Face)
    (enabled : Bool) (threshold lbt debounceMs now : ℚ)
    (h : face.leftEyeOpenProbability = none ∨
         face.rightEyeOpenProbability = none) :
    BlinkProcessor.processBlinkFromFaces states (face :: rest) lbt debounceMs
        now = (states, none) ∧
    EyeStatusHook.processEyeStatus enabled threshold (face :: rest) now =
        none ∧
    SmartCameraComponent.processBlink s (face :: rest) now =
      SmartCameraComponent.processBlink s
        ({ face with
            leftEyeOpenProbability := some (face.leftEyeOpenProbability.getD 1)
            rightEyeOpenProbability :=
              some (face.rightEyeOpenProbability.getD 1) } :: rest) now := by
  refine ⟨?_, ?_, ?_⟩
  · rcases h with h | h
    · cases hx : face.rightEyeOpenProbability <;>
        simp [BlinkProcessor.processBlinkFromFaces, h, hx]
    · cases hx : face.leftEyeOpenProbability <;>
        simp [BlinkProcessor.processBlinkFromFaces, h, hx]
  · rcases h with h | h
    · cases hx : face.rightEyeOpenProbability <;>
        cases enabled <;>
        simp [EyeStatusHook.processEyeStatus, h, hx]
    · cases hx : face.leftEyeOpenProbability <;>
        cases enabled <;>
        simp [EyeStatusHook.processEyeStatus, h, hx]
  · simp [SmartCameraComponent.processBlink]

/-- Closed instantiation of the amended C5 theorem at a face with an absent
left-eye probability. -/
theorem missing_probability_policy_witness :
    BlinkProcessor.processBlinkFromFaces []
        [mkFace none (some 0.2) none] 0 300 1000 = ([], none) ∧
    EyeStatusHook.processEyeStatus true 0.5
        [mkFace none (some 0.2) none] 1000 = none ∧
    SmartCameraComponent.processBlink ⟨0.9, 0.9, 0⟩
        [mkFace none (some 0.2) none] 1000 =
      SmartCameraComponent.processBlink ⟨0.9, 0.9, 0⟩
        [{ mkFace none (some 0.2) none with
            leftEyeOpenProbability :=
              some ((mkFace none (some 0.2) none).leftEyeOpenProbability.getD 1)
            rightEyeOpenProbability :=
              some ((mkFace none (some 0.2)
                none).rightEyeOpenProbability.getD 1) }] 1000 :=
  missing_probability_policy [] ⟨0.9, 0.9, 0⟩ (mkFace none (some 0.2) none)
    [] true 0.5 0 300 1000 (Or.inl rfl)

/-- C6: blink events are debounced in both trackers.  A variant A event
carries timestamp now, is only emitted when now - lastBlinkTime exceeds the
debounce, and sets lastBlinkTime to now; over any sample sequence the
variant A events are pairwise more than BLINK_DEBOUNCE_MS apart, and the
variant B events sharing one state key are pairwise more than debounceMs
apart; two blink-triggering transitions 100 ms apart with the 300 ms
debounce produce only one event. -/
theorem blink_events_debounced (samples : List (List Face × ℚ))
    (states : BlinkProcessor.BlinkStates) (debounceMs : ℚ) (k : ℤ)
    (s : SmartCameraComponent.BlinkState) (faces : List Face) (now : ℚ)
    (e : BlinkEvent) (hdeb : 0 ≤ debounceMs)
    (hemit : (SmartCameraComponent.processBlink s faces now).2 = some e) :
    (e.timestamp = now ∧
     (SmartCameraComponent.processBlink s faces now).1.lastBlinkTime = now ∧
     now - s.lastBlinkTime > SmartCameraComponent.BLINK_DEBOUNCE_MS) ∧
    ((SmartCameraComponent.runBlink SmartCameraComponent.initialBlinkState
        samples).2.map (fun ev => ev.timestamp)).Pairwise
        (fun a b => b - a > SmartCameraComponent.BLINK_DEBOUNCE_MS) ∧
    (((BlinkProcessor.runBlinkFromFaces states debounceMs samples).2.filter
        (fun ev => ev.faceId.getD 0 == k)).map
        (fun ev => ev.timestamp)).Pairwise (fun a b => b - a > debounceMs) ∧
    (SmartCameraComponent.runBlink SmartCameraComponent.initialBlinkState
      [([mkFace (some 0.9) (some 0.9) none], 1000),
       ([mkFace (some 0.1) (some 0.1) none], 1050),
       ([mkFace (some 0.9) (some 0.9) none], 1080),
       ([mkFace (some 0.1) (some 0.1) none], 1150)]).2 =
      [{ timestamp := 1050, leftEyeOpen := 0.1, rightEyeOpen := 0.1,
         isBlink := true, faceId := none }] := by
  refine ⟨SmartCameraComponent.processBlink_emit_spec s faces now e hemit,
    ?_, ?_, ?_⟩
  · exact chain_gap_pairwise
      (by norm_num [SmartCameraComponent.BLINK_DEBOUNCE_MS])
      (SmartCameraComponent.runBlink_chain samples
        SmartCameraComponent.initialBlinkState)
  · exact chain_gap_pairwise hdeb
      (BlinkProcessor.runBlinkFromFaces_chain debounceMs samples states k)
  · norm_num [SmartCameraComponent.runBlink,
      SmartCameraComponent.processBlink,
      SmartCameraComponent.initialBlinkState, mkFace,
      SmartCameraComponent.EYE_OPEN_THRESHOLD,
      SmartCameraComponent.EYE_CLOSED_THRESHOLD,
      SmartCameraComponent.BLINK_DEBOUNCE_MS]

/-- Closed instantiation of the C6 theorem: from state (1, 1, 0) a sample
with both probabilities 0 at time 1000 emits an event. -/
theorem blink_events_debounced_witness :
    (({ timestamp := 1000, leftEyeOpen := 0, rightEyeOpen := 0
        isBlink := true, faceId := none } : BlinkEvent).timestamp = 1000 ∧
     (SmartCameraComponent.processBlink ⟨1, 1, 0⟩
        [mkFace (some 0) (some 0) none] 1000).1.lastBlinkTime = 1000 ∧
     (1000 : ℚ) - (⟨1, 1, 0⟩ :
        SmartCameraComponent.BlinkState).lastBlinkTime >
       SmartCameraComponent.BLINK_DEBOUNCE_MS) ∧
    ((SmartCameraComponent.runBlink SmartCameraComponent.initialBlinkState
        []).2.map (fun ev => ev.timestamp)).Pairwise
        (fun a b => b - a > SmartCameraComponent.BLINK_DEBOUNCE_MS) ∧
    (((BlinkProcessor.runBlinkFromFaces [] 300 []).2.filter
        (fun ev => ev.faceId.getD 0 == 0)).map
        (fun ev => ev.timestamp)).Pairwise (fun a b => b - a > 300) ∧
    (SmartCameraComponent.runBlink SmartCameraComponent.initialBlinkState
      [([mkFace (some 0.9) (some 0.9) none], 1000),
       ([mkFace (some 0.1) (some 0.1) none], 1050),
       ([mkFace (some 0.9) (some 0.9) none], 1080),
       ([mkFace (some 0.1) (some 0.1) none], 1150)]).2 =
      [{ timestamp := 1050, leftEyeOpen := 0.1, rightEyeOpen := 0.1,
         isBlink := true, faceId := none }] :=
  blink_events_debounced [] [] 300 0 ⟨1, 1, 0⟩
    [mkFace (some 0) (some 0) none] 1000
    { timestamp := 1000, leftEyeOpen := 0, rightEyeOpen := 0
      isBlink := true, faceId := none }
    (by norm_num)
    (by norm_num [SmartCameraComponent.processBlink, mkFace,
      SmartCameraComponent.EYE_OPEN_THRESHOLD,
      SmartCameraComponent.EYE_CLOSED_THRESHOLD,
      SmartCameraComponent.BLINK_DEBOUNCE_MS])

end SmartCamera
